import Mathlib

/-!
Verification of the mapping/validation/transform engine of
`mongo-connector-postgresql` (`mongo_connector/doc_managers/mappings.py`).

This development is a shallow embedding, in Lean 4, of the module
`mongo_connector/doc_managers/mappings.py`.  Python dictionaries become
association lists that keep insertion order (the iteration order of a Python
`dict`), Python runtime exceptions become an explicit `Except` monad, and the
external collaborators (the document flattener, the Python import machinery,
and the RestrictedPython expression compiler together with CPython's `exec`)
become explicit parameters or small models whose doc comments state what they
are modelled from.

Naming follows the source: `get_transformed_value`, `get_mapped_document`,
`validate_mapping`, and so on are direct translations of the functions of the
same names in `mappings.py`.
-/

namespace Mappings

/-- Python runtime values as far as this module manipulates them: document
field values, transform results, and (for the sandbox analysis) the file
object produced by a successful call to the builtin `open`. -/
inductive Value where
  | int (n : Int)
  | str (s : String)
  | bool (b : Bool)
  | pynone
  | file (path : String)
  deriving DecidableEq, Repr

/-- Observable side effects of evaluating a user-supplied expression
transform.  The module under verification is supposed to deny all ambient
capabilities to expression transforms, so an honest run produces `[]`. -/
inductive Effect where
  | openFile (path : String)
  deriving DecidableEq, Repr

/-- The kinds of `InvalidConfiguration` raised by `validate_mapping`.
`InvalidConfiguration` itself lives in `mongo_connector/errors.py`, which is
not part of the sources under verification; modelled from the spec as a
configuration-error value carrying the same context the source interpolates
into its message strings. -/
inductive ConfErr where
  | schemaInvalid
  | pkNotFound (pk database collection : String)
  | collectionNotFound (dest database : String)
  | fkNotFound (fk database dest : String)
  | fkTypeMismatch (database dest fk collection pk : String)
  | valueFieldNotMapped (database collection valuefield dest : String)
  deriving DecidableEq, Repr

/-- Python exceptions that the embedded code can raise to its caller. -/
inductive PyErr where
  | keyError
  | attributeError
  | importError
  | valueError
  | typeError
  | indexError
  | invalidConfiguration (e : ConfErr)
  deriving DecidableEq, Repr

instance {ε α : Type} [DecidableEq ε] [DecidableEq α] : DecidableEq (Except ε α) :=
  fun a b =>
    match a, b with
    | .error e₁, .error e₂ =>
      if h : e₁ = e₂ then .isTrue (by rw [h]) else .isFalse (by intro hc; cases hc; exact h rfl)
    | .ok v₁, .ok v₂ =>
      if h : v₁ = v₂ then .isTrue (by rw [h]) else .isFalse (by intro hc; cases hc; exact h rfl)
    | .error _, .ok _ => .isFalse (by intro hc; cases hc)
    | .ok _, .error _ => .isFalse (by intro hc; cases hc)

/-- A field mapping: the sub-dictionary describing one source field.  All five
keys are optional at the dictionary level; which ones must be present is the
business of the JSON schema and of `validate_mapping`. -/
structure FieldMapping where
  type : Option String := none
  dest : Option String := none
  transform : Option String := none
  fk : Option String := none
  valueField : Option String := none
  deriving DecidableEq, Repr

/-- A value of a collection-mapping dictionary: the distinguished `pk` entry
holds a plain string (the primary-key field name), every other entry holds a
field-mapping sub-dictionary. -/
inductive MapVal where
  | str (s : String)
  | fm (f : FieldMapping)
  deriving DecidableEq, Repr

/-- A Python `dict` with string keys, as an insertion-ordered association
list.  Real `dict`s have no duplicate keys; where a proof needs that fact it
is an explicit hypothesis. -/
abbrev PyDict (α : Type) := List (String × α)

/-- A collection mapping: field name (or `"pk"`) to `MapVal`. -/
abbrev CollM := PyDict MapVal
/-- A database mapping: collection name to collection mapping. -/
abbrev DbM := PyDict CollM
/-- The root mapping configuration: database name to database mapping. -/
abbrev MappingConf := PyDict DbM

/-- `d[k]` as an `Option`: the first entry whose key is `k`. -/
def dlookup {α : Type} (d : PyDict α) (k : String) : Option α :=
  match d with
  | [] => none
  | (k', v) :: rest => if k' = k then some v else dlookup rest k

/-- Python `k in d` on a dictionary. -/
def dcontains {α : Type} (d : PyDict α) (k : String) : Bool :=
  (dlookup d k).isSome

/-- Python `d[k] = v`: replace in place if the key exists, else append. -/
def dinsert {α : Type} (d : PyDict α) (k : String) (v : α) : PyDict α :=
  if dcontains d k then
    d.map (fun p => if p.1 = k then (k, v) else p)
  else
    d ++ [(k, v)]

/-- The removal part of Python `d.pop(k)` (the value is read separately). -/
def dpop {α : Type} (d : PyDict α) (k : String) : PyDict α :=
  d.filter (fun p => p.1 ≠ k)

/-- `list(d)`: the keys of a dictionary, in insertion order. -/
def dkeys {α : Type} (d : PyDict α) : List String :=
  d.map (fun p => p.1)

/-- Python `sub in s` on strings: substring containment over character
lists. -/
def listContainsSub (pat : List Char) : List Char → Bool
  | [] => pat.isPrefixOf ([] : List Char)
  | c :: rest => pat.isPrefixOf (c :: rest) || listContainsSub pat rest

/-- Python `pat in s` for strings `s`. -/
def strContainsSub (s pat : String) : Bool :=
  listContainsSub pat.data s.data

/-- `utils.ARRAY_TYPE`.  `mongo_connector/doc_managers/utils.py` is not among
the sources under verification; modelled from the spec, which only needs the
array type tag to be a fixed string distinct from the other type tags. -/
def ARRAY_TYPE : String := "_ARRAY"

/-- `utils.ARRAY_OF_SCALARS_TYPE`; modelled from the spec like `ARRAY_TYPE`. -/
def ARRAY_OF_SCALARS_TYPE : String := "_ARRAY_OF_SCALARS"

/-- A namespace is a database+collection pair.  `utils.db_and_collection`
(splitting the dotted string) is not among the sources under verification;
modelled from the spec's glossary, a namespace is carried directly as the
pair it denotes. -/
abbrev Namespace := String × String

/-- `utils.db_and_collection`, modelled from the spec: resolve a namespace
into its database and collection. -/
def db_and_collection (ns : Namespace) : String × String := ns

/-! ## Value Transform Evaluator (`get_transformed_value`) -/

/-- A resolved transform function.  Calling it either returns a new value or
raises (absorbed by the caller), and may additionally perform observable
effects (which, for a correctly sandboxed expression transform, are none). -/
abbrev TransformFn := Value → Except Unit Value × List Effect

/-- A Python module as the transform machinery sees it: its member functions
by name.  Models the module universe reachable through
`importlib.import_module`, an external collaborator of the source. -/
abbrev ModuleTable := PyDict TransformFn

/-- `importlib.import_module`, modelled from its documented contract: the
empty module path raises `ValueError`, a path outside the module universe
raises `ImportError`, anything else returns the module. -/
def importModule (modules : PyDict ModuleTable) (name : String) :
    Except PyErr ModuleTable :=
  if name = "" then .error .valueError
  else
    match dlookup modules name with
    | some m => .ok m
    | none => .error .importError

/-- `getattr(module, name)`: `AttributeError` when the member is absent. -/
def getattrModule (m : ModuleTable) (name : String) : Except PyErr TransformFn :=
  match dlookup m name with
  | some f => .ok f
  | none => .error .attributeError

/-- `transform[1:].rsplit('.', 1)` as the source consumes it: `(none, s)`
when the path contains no dot (the one-element list branch), otherwise
`(some module_path, symbol)` split at the last dot. -/
def rsplitDot (s : String) : Option String × String :=
  match (s.data.reverse).takeWhile (fun c => c ≠ '.'),
        (s.data.reverse).dropWhile (fun c => c ≠ '.') with
  | _, [] => (none, s)
  | symRev, _dot :: restRev =>
    (some (String.mk restRev.reverse), String.mk symRev.reverse)

/-- A global environment for `exec`: names bound to module-like member
tables (the only shape of global the source installs). -/
abbrev Globals := PyDict (List String)

/-- The member names of RestrictedPython's `safe_builtins`; modelled from
that external collaborator's documented contract: a minimal whitelist of
pure callables, with no file, import, or reflection capability — in
particular no `open`. -/
def safe_builtins_members : List String :=
  ["abs", "bool", "int", "str", "len", "divmod", "max", "min", "round"]

/-- The member names of the real CPython builtins module, as far as this
analysis needs them; modelled from CPython: every safe builtin plus the
ambient-capability ones, among them `open`. -/
def real_builtins_members : List String :=
  "open" :: "__import__" :: safe_builtins_members

/-- CPython's `exec` contract, modelled from the language reference: if the
supplied globals mapping has no `__builtins__` key, a reference to the real
builtins module is inserted under that key before execution. -/
def cpython_prepare_globals (g : Globals) : Globals :=
  if dcontains g "__builtins__" then g
  else g ++ [("__builtins__", real_builtins_members)]

/-- Name resolution for a plain (non-local) name inside code executed under
globals `g`: the name resolves iff it is a member of the `__builtins__`
entry of the prepared globals.  (Keys of `g` itself would shadow builtins,
but the source installs no callable global, so only the builtins matter.) -/
def resolvesBuiltin (g : Globals) (name : String) : Bool :=
  match dlookup (cpython_prepare_globals g) "__builtins__" with
  | some members => members.contains name
  | none => false

/-- The body of a compiled expression transform, as the restricted compiler
hands it back: a literal, the bound input `val`, or a call of a global
name. -/
inductive TExpr where
  | lit (v : Value)
  | var
  | call (fname : String) (arg : TExpr)
  deriving Repr

/-- Evaluation of a compiled expression body under globals `g` with the
input bound to `val`.  A name that does not resolve raises (`NameError`,
collapsed into the anonymous error); a resolved `open` performs the file
capability and returns the file object; resolved builtins outside the
modelled fragment fail.  Effects performed before a raise are kept. -/
def teval (g : Globals) : TExpr → Value → Except Unit Value × List Effect
  | .lit v, _ => (.ok v, [])
  | .var, val => (.ok val, [])
  | .call fname arg, val =>
    match teval g arg val with
    | (.error e, effs) => (.error e, effs)
    | (.ok av, effs) =>
      if resolvesBuiltin g fname then
        match fname, av with
        | "open", .str p => (.ok (.file p), effs ++ [Effect.openFile p])
        | _, _ => (.error (), effs)
      else (.error (), effs)

/-- Modelled from the spec: the front end of the external RestrictedPython
`compile_restricted` collaborator (which is not part of the sources under
verification), defined on the expression transforms this development
evaluates.  RestrictedPython's compile-stage policy admits plain names and
calls, so the file-access expression compiles; every other string is a
compile failure. -/
def compile_restricted_model (s : String) : Except Unit TExpr :=
  if s = "open('/etc/passwd')" then
    .ok (.call "open" (.lit (.str "/etc/passwd")))
  else .error ()

/-- The globals dictionary built by `get_transformed_value` (mappings.py
lines 122-124): the safe builtins are installed under the key
`"__builtin__"` — note the missing trailing `s`. -/
def source_restricted_globals : Globals :=
  [("__builtin__", safe_builtins_members)]

/-- The globals dictionary the spec's sandbox contract calls for: the safe
builtins under the key CPython actually consults. -/
def intended_restricted_globals : Globals :=
  [("__builtins__", safe_builtins_members)]

/-- `compile_restricted` + `exec` + `restricted_locals['transform']` as the
source composes them, under the source's globals. -/
def compileExpr_source (s : String) : Except Unit TransformFn :=
  (compile_restricted_model s).map (fun e => teval source_restricted_globals e)

/-- The same composition under the intended `__builtins__` key. -/
def compileExpr_intended (s : String) : Except Unit TransformFn :=
  (compile_restricted_model s).map (fun e => teval intended_restricted_globals e)

/-- The external machinery `get_transformed_value` draws on: the importable
module universe, and the compile-and-exec step for expression transforms
(any failure inside it is an anonymous exception, caught by the source's
`except Exception`). -/
structure TransformEnv where
  modules : PyDict ModuleTable
  compileExpr : String → Except Unit TransformFn

/-- `transform(val)` under the source's final `try`: an exception from the
transform is absorbed and the original value kept; effects performed before
the raise remain performed. -/
def runTransform (f : TransformFn) (val : Value) : Except PyErr (Value × List Effect) :=
  match f val with
  | (.ok new_val, effs) => .ok (new_val, effs)
  | (.error _, effs) => .ok (val, effs)

/-- `get_transformed_value(mapped_field, mapped_document, key)`
(mappings.py lines 93-156).  The reference branch catches exactly
`ImportError` and `ValueError`; every other resolution exception —
`AttributeError` included — propagates.  The expression branch is wrapped in
`except Exception` and absorbs any compile failure.  `transform[0]` on the
empty string raises `IndexError`. -/
def get_transformed_value (env : TransformEnv) (mapped_field : FieldMapping)
    (mapped_document : PyDict Value) (key : String) :
    Except PyErr (Value × List Effect) := do
  let val ← match dlookup mapped_document key with
    | some v => Except.ok v
    | none => Except.error PyErr.keyError
  match mapped_field.transform with
  | none => pure (val, [])
  | some transform =>
    match transform.data with
    | [] => Except.error PyErr.indexError
    | c :: cs =>
      if c = '@' then
        let (mopt, sym) := rsplitDot (String.mk cs)
        let module_path := mopt.getD "mongo_connector.doc_managers.transforms"
        match (importModule env.modules module_path).bind
              (fun m => getattrModule m sym) with
        | .ok f => runTransform f val
        | .error .importError => pure (val, [])
        | .error .valueError => pure (val, [])
        | .error e => Except.error e
      else
        match env.compileExpr transform with
        | .ok f => runTransform f val
        | .error _ => pure (val, [])

/-! ## Document Transformer -/

/-- `_clean_and_flatten_doc(mappings, doc, namespace)` (lines 26-64).  The
document flattener `_formatter.format_document` is the external `Flattener`
collaborator and is passed in as `fmt`.  Keys of the flattened document that
are not keys of the collection mapping are dropped; an unmapped database or
collection yields the empty dictionary. -/
def clean_and_flatten_doc {Doc : Type} (fmt : Doc → PyDict Value)
    (mappings : MappingConf) (doc : Doc) (ns : Namespace) : PyDict Value :=
  let flat_doc := fmt doc
  let (db, coll) := db_and_collection ns
  match dlookup mappings db with
  | none => []
  | some mappings_db =>
    match dlookup mappings_db coll with
    | none => []
    | some mappings_coll =>
      flat_doc.filter (fun kv => dcontains mappings_coll kv.1)

/-- `get_mapped_document(mappings, document, namespace)` (lines 67-80): for
every key of the cleaned-and-flattened document, in insertion order, rename
it to the field mapping's `dest` when one is present
(`cleaned[mappedKey] = cleaned.pop(key)`).  A retained key whose mapping
entry is the `pk` string is renamed only if `'dest' in` that string —
Python's substring test — and then `field_mapping['dest']` raises
`TypeError`.  The loop body is named `mapped_document_step` so that the
rename loop can be reasoned about per step. -/
def mapped_document_step (mappings : MappingConf) (db collection : String)
    (d : PyDict Value) (key : String) : Except PyErr (PyDict Value) := do
  let field_mapping ← match dlookup mappings db with
    | none => Except.error PyErr.keyError
    | some mdb =>
      match dlookup mdb collection with
      | none => Except.error PyErr.keyError
      | some mcoll =>
        match dlookup mcoll key with
        | none => Except.error PyErr.keyError
        | some v => Except.ok v
  match field_mapping with
  | .str s =>
    if strContainsSub s "dest" then Except.error PyErr.typeError
    else pure d
  | .fm f =>
    match f.dest with
    | some mappedKey =>
      match dlookup d key with
      | some v => pure (dinsert (dpop d key) mappedKey v)
      | none => Except.error PyErr.keyError
    | none => pure d

/-- `get_mapped_document(mappings, document, namespace)` (lines 67-80):
clean and flatten, then run the rename loop over the snapshot of the keys
(`keys = list(cleaned_and_flatten_document)`). -/
def get_mapped_document {Doc : Type} (fmt : Doc → PyDict Value)
    (mappings : MappingConf) (document : Doc) (ns : Namespace) :
    Except PyErr (PyDict Value) :=
  let cleaned := clean_and_flatten_doc fmt mappings document ns
  let (db, collection) := db_and_collection ns
  let keys := dkeys cleaned
  keys.foldlM (mapped_document_step mappings db collection) cleaned

/-- The `mapped_fields` comprehension of `get_transformed_document`
(lines 160-167): destination name to field mapping, for every entry that has
a `dest` and is not array-typed.  The `pk` entry is a string, so `'dest' in
mapping` is a substring test and `mapping['type']` then raises
`TypeError`. -/
def buildMappedFields (mcoll : CollM) : Except PyErr (PyDict FieldMapping) :=
  mcoll.foldlM (fun acc kv =>
    match kv.2 with
    | .str s =>
      if strContainsSub s "dest" then Except.error PyErr.typeError
      else pure acc
    | .fm f =>
      match f.dest with
      | none => pure acc
      | some d =>
        match f.type with
        | none => Except.error PyErr.keyError
        | some t =>
          if t = ARRAY_TYPE ∨ t = ARRAY_OF_SCALARS_TYPE then pure acc
          else pure (dinsert acc d f)) []

/-- `get_transformed_document(mappings, db, collection, mapped_document)`
(lines 159-177): apply `get_transformed_value` to every key of the mapped
document that names a retained non-array field, pass every other key
through.  The source also computes a sorted list of `mapped_fields`' keys
(lines 168-169) that is never used afterwards; the dead computation is not
modelled.  Effects of the per-value transforms accumulate in key order. -/
def get_transformed_document (env : TransformEnv) (mappings : MappingConf)
    (db collection : String) (mapped_document : PyDict Value) :
    Except PyErr (PyDict Value × List Effect) := do
  let mcoll ← match dlookup mappings db with
    | none => Except.error PyErr.keyError
    | some mdb =>
      match dlookup mdb collection with
      | none => Except.error PyErr.keyError
      | some mcoll => Except.ok mcoll
  let mapped_fields ← buildMappedFields mcoll
  mapped_document.foldlM (fun acc kv => do
    match dlookup mapped_fields kv.1 with
    | some fm => do
      let r ← get_transformed_value env fm mapped_document kv.1
      pure (dinsert acc.1 kv.1 r.1, acc.2 ++ r.2)
    | none =>
      match dlookup mapped_document kv.1 with
      | some v => pure (dinsert acc.1 kv.1 v, acc.2)
      | none => Except.error PyErr.keyError)
    (([], []) : PyDict Value × List Effect)

/-- The per-document transform pipeline of the claim: `get_mapped_document`
followed by `get_transformed_document` on the same namespace. -/
def transform_pipeline {Doc : Type} (env : TransformEnv)
    (fmt : Doc → PyDict Value) (mappings : MappingConf) (document : Doc)
    (ns : Namespace) : Except PyErr (PyDict Value × List Effect) := do
  let md ← get_mapped_document fmt mappings document ns
  let (db, collection) := db_and_collection ns
  get_transformed_document env mappings db collection md

/-! ## Lookup API -/

/-- `get_mapped_field(mappings, namespace, field_name)` (lines 83-85):
`mappings[db][collection][field_name]['dest']`, each subscript raising
`KeyError` when absent; subscripting the `pk` string raises `TypeError`. -/
def get_mapped_field (mappings : MappingConf) (ns : Namespace)
    (field_name : String) : Except PyErr String := do
  let (db, collection) := db_and_collection ns
  match dlookup mappings db with
  | none => Except.error PyErr.keyError
  | some mdb =>
    match dlookup mdb collection with
    | none => Except.error PyErr.keyError
    | some mcoll =>
      match dlookup mcoll field_name with
      | none => Except.error PyErr.keyError
      | some (.str _) => Except.error PyErr.typeError
      | some (.fm f) =>
        match f.dest with
        | some d => pure d
        | none => Except.error PyErr.keyError

/-- `get_primary_key(mappings, namespace)` (lines 88-90):
`mappings[db][collection]['pk']`, each subscript raising `KeyError` when
absent. -/
def get_primary_key (mappings : MappingConf) (ns : Namespace) :
    Except PyErr MapVal := do
  let (db, collection) := db_and_collection ns
  match dlookup mappings db with
  | none => Except.error PyErr.keyError
  | some mdb =>
    match dlookup mdb collection with
    | none => Except.error PyErr.keyError
    | some mcoll =>
      match dlookup mcoll "pk" with
      | none => Except.error PyErr.keyError
      | some v => pure v

/-- `is_mapped(mappings, namespace, field_name=None)` (lines 180-183). -/
def is_mapped (mappings : MappingConf) (ns : Namespace)
    (field_name : Option String) : Bool :=
  let (db, collection) := db_and_collection ns
  match dlookup mappings db with
  | none => false
  | some mdb =>
    match dlookup mdb collection with
    | none => false
    | some mcoll =>
      match field_name with
      | none => true
      | some f => dcontains mcoll f

/-- `is_id_autogenerated(mappings, namespace)` (lines 186-192): count the
entries whose `dest` equals the primary-key name and test the count against
zero.  The comprehension also visits the `pk` entry, whose value is a
string: `'dest' in v` is then a substring test, and `v['dest']` raises
`TypeError` when it succeeds.  A `dest` string never equals a non-string
primary-key value (Python `==` across those types is `False`).  The loop
body is the named `id_autogen_step` below. -/
def id_autogen_step (primary_key : MapVal) (n : Nat) (kv : String × MapVal) :
    Except PyErr Nat := do
  let b ← match kv.2 with
    | .str s =>
      if strContainsSub s "dest" then Except.error PyErr.typeError
      else pure false
    | .fm f =>
      pure (match f.dest, primary_key with
        | some d, .str pks => d == pks
        | _, _ => false)
  pure (if b then n + 1 else n)

/-- `is_id_autogenerated(mappings, namespace)` (lines 186-192), assembled
from `get_primary_key` and the counting loop. -/
def is_id_autogenerated (mappings : MappingConf) (ns : Namespace) :
    Except PyErr Bool := do
  let primary_key ← get_primary_key mappings ns
  let (db, collection) := db_and_collection ns
  let mcoll ← match dlookup mappings db with
    | none => Except.error PyErr.keyError
    | some mdb =>
      match dlookup mdb collection with
      | none => Except.error PyErr.keyError
      | some mcoll => Except.ok mcoll
  let mapped_to_primary_key ← mcoll.foldlM (id_autogen_step primary_key) (0 : Nat)
  pure (mapped_to_primary_key == 0)

/-- `get_scalar_array_fields(mappings, db, collection)` (lines 195-202):
the empty list when the database or collection is unmapped — silently, with
no error — else the names of the fields of array-of-scalars type.  The
comprehension visits the `pk` string entry, where `'type' in v` is a
substring test and `v['type']` then raises `TypeError`. -/
def get_scalar_array_fields (mappings : MappingConf) (db collection : String) :
    Except PyErr (List String) :=
  match dlookup mappings db with
  | none => .ok []
  | some mdb =>
    match dlookup mdb collection with
    | none => .ok []
    | some mcoll =>
      mcoll.foldlM (fun acc kv =>
        match kv.2 with
        | .str s =>
          if strContainsSub s "type" then Except.error PyErr.typeError
          else pure acc
        | .fm f =>
          match f.type with
          | none => pure acc
          | some t =>
            if t = ARRAY_OF_SCALARS_TYPE then pure (acc ++ [kv.1])
            else pure acc) []

/-! ## Configuration Validator (`validate_mapping`) -/

/-- Structural validity of a field-mapping entry.  Modelled from the spec:
`MAPPING_SCHEMA` lives in `mongo_connector/doc_managers/mapping_schema.py`,
which is not among the sources under verification.  Per the spec a field
entry is `{type, dest?, transform?, fk?, valueField?}` with `type` required;
`fk` (and, per §4.2, `dest`) are required for array-typed fields and
`valueField` additionally for array-of-scalars fields. -/
def schema_valid_field (f : FieldMapping) : Bool :=
  match f.type with
  | none => false
  | some t =>
    ((t != ARRAY_TYPE && t != ARRAY_OF_SCALARS_TYPE) ||
      (f.dest.isSome && f.fk.isSome)) &&
    ((t != ARRAY_OF_SCALARS_TYPE) || f.valueField.isSome)

/-- Structural validity of a collection mapping (modelled from the spec):
a required `pk` key holding a string, every other key holding a valid field
entry, and — a dictionary invariant — no duplicate keys. -/
def schema_valid_coll (mapping : CollM) : Bool :=
  (match dlookup mapping "pk" with
   | some (.str _) => true
   | _ => false) &&
  mapping.all (fun kv =>
    if kv.1 = "pk" then
      match kv.2 with
      | .str _ => true
      | .fm _ => false
    else
      match kv.2 with
      | .fm f => schema_valid_field f
      | .str _ => false) &&
  decide (dkeys mapping).Nodup

/-- Structural validity of a database mapping (modelled from the spec). -/
def schema_valid_db (dbmapping : DbM) : Bool :=
  decide (dkeys dbmapping).Nodup &&
  dbmapping.all (fun kv => schema_valid_coll kv.2)

/-- Structural validity of the whole configuration (modelled from the spec:
the `jsonschema.validate(mappings, MAPPING_SCHEMA)` step of
`validate_mapping`). -/
def schema_valid (mappings : MappingConf) : Bool :=
  decide (dkeys mappings).Nodup &&
  mappings.all (fun kv => schema_valid_db kv.2)

/-- The `links` comprehension of the primary-key search (lines 228-234):
one flag per field of the candidate linked collection that is array-typed
with `dest` equal to this collection.  The comprehension subscripts
`linked_mapping[field]['type']` and (after a short-circuit) `...['dest']`,
so a non-`pk` string entry raises `TypeError` and a missing `type`/`dest`
key raises `KeyError`. -/
def linkFlags (collection : String) : List (String × MapVal) → Except PyErr Nat
  | [] => pure 0
  | (field, v) :: rest => do
    let b ← if field = "pk" then pure false
      else
        match v with
        | .str _ => Except.error PyErr.typeError
        | .fm f =>
          match f.type with
          | none => Except.error PyErr.keyError
          | some t =>
            if t = ARRAY_TYPE ∨ t = ARRAY_OF_SCALARS_TYPE then
              match f.dest with
              | none => Except.error PyErr.keyError
              | some d => pure (d == collection)
            else pure false
    let n ← linkFlags collection rest
    pure (if b then n + 1 else n)

/-- The `for`/`else` search for a linked collection (lines 225-237): walk
the database mapping in order, skip this collection itself, and stop at the
first other collection with at least one array-typed field pointing here. -/
def findLinked (collection : String) : DbM → Except PyErr Bool
  | [] => pure false
  | (linked_collection, linked_mapping) :: rest =>
    if linked_collection = collection then findLinked collection rest
    else do
      let links ← linkFlags collection linked_mapping
      if links > 0 then pure true else findLinked collection rest

/-- The per-collection primary-key resolution (lines 223-247): when the
`pk` value is not itself a key of the collection mapping, a linked
collection must exist, else `InvalidConfiguration` "primary key mapping not
found". -/
def check_pk (database collection : String) (dbmapping : DbM)
    (mapping : CollM) : Except PyErr Unit := do
  let pkv ← match dlookup mapping "pk" with
    | none => Except.error PyErr.keyError
    | some v => pure v
  match pkv with
  | .fm _ => Except.error PyErr.typeError
  | .str pkname =>
    if dcontains mapping pkname then pure ()
    else do
      let found ← findLinked collection dbmapping
      if found then pure ()
      else
        Except.error (PyErr.invalidConfiguration
          (.pkNotFound pkname database collection))

/-- `mapping[...]['type']` on a collection-mapping value: the `pk` string
raises `TypeError`, a field entry without `type` raises `KeyError`. -/
def getTypeItem : MapVal → Except PyErr String
  | .str _ => Except.error PyErr.typeError
  | .fm f =>
    match f.type with
    | none => Except.error PyErr.keyError
    | some t => pure t

/-- The per-field referential checks (lines 249-304): for array-typed
fields, the destination collection must exist, its foreign-key field must
exist, the foreign key's type must equal the resolved primary key's type
(`mapping.get(mapping['pk'], {'type': 'SERIAL'})`), and for
array-of-scalars fields the value field must exist in the destination. -/
def check_field (database collection : String) (dbmapping : DbM)
    (mapping : CollM) (fieldname : String) (v : MapVal) :
    Except PyErr Unit :=
  if fieldname = "pk" then pure ()
  else do
    let field ← match v with
      | .str _ => Except.error PyErr.typeError
      | .fm f => pure f
    let ftype ← match field.type with
      | none => Except.error PyErr.keyError
      | some t => pure t
    if ftype = ARRAY_TYPE ∨ ftype = ARRAY_OF_SCALARS_TYPE then do
      let dest ← match field.dest with
        | none => Except.error PyErr.keyError
        | some d => pure d
      match dlookup dbmapping dest with
      | none =>
        Except.error (PyErr.invalidConfiguration
          (.collectionNotFound dest database))
      | some destMapping => do
        let fk ← match field.fk with
          | none => Except.error PyErr.keyError
          | some fk => pure fk
        if ¬ dcontains destMapping fk then
          Except.error (PyErr.invalidConfiguration
            (.fkNotFound fk database dest))
        else do
          let fkEntry ← match dlookup destMapping fk with
            | none => Except.error PyErr.keyError
            | some e => pure e
          let pkv ← match dlookup mapping "pk" with
            | none => Except.error PyErr.keyError
            | some pv => pure pv
          match pkv with
          | .fm _ => Except.error PyErr.typeError
          | .str pkname => do
            let pkEntry :=
              (dlookup mapping pkname).getD (MapVal.fm { type := some "SERIAL" })
            let fkType ← getTypeItem fkEntry
            let pkType ← getTypeItem pkEntry
            if fkType ≠ pkType then
              Except.error (PyErr.invalidConfiguration
                (.fkTypeMismatch database dest fk collection pkname))
            else pure ()
        if ftype = ARRAY_OF_SCALARS_TYPE then do
          let valuefield ← match field.valueField with
            | none => Except.error PyErr.keyError
            | some vf => pure vf
          if ¬ dcontains destMapping valuefield then
            Except.error (PyErr.invalidConfiguration
              (.valueFieldNotMapped database collection valuefield dest))
          else pure ()
        else pure ()
    else pure ()

/-- The field loop of a collection (line 249): every entry in order, the
`pk` entry skipped inside `check_field`. -/
def check_fields (database collection : String) (dbmapping : DbM)
    (mapping : CollM) : List (String × MapVal) → Except PyErr Unit
  | [] => pure ()
  | (fieldname, v) :: rest => do
    check_field database collection dbmapping mapping fieldname v
    check_fields database collection dbmapping mapping rest

/-- One collection: primary-key resolution, then the per-field checks. -/
def check_collection (database : String) (dbmapping : DbM)
    (collection : String) (mapping : CollM) : Except PyErr Unit := do
  check_pk database collection dbmapping mapping
  check_fields database collection dbmapping mapping mapping

/-- The collection loop of one database (line 220). -/
def validate_colls (database : String) (dbmapping : DbM) :
    List (String × CollM) → Except PyErr Unit
  | [] => pure ()
  | (collection, mapping) :: rest => do
    check_collection database dbmapping collection mapping
    validate_colls database dbmapping rest

/-- The database loop (line 217). -/
def validate_dbs : List (String × DbM) → Except PyErr Unit
  | [] => pure ()
  | (database, dbmapping) :: rest => do
    validate_colls database dbmapping dbmapping
    validate_dbs rest

/-- `validate_mapping(mappings)` (lines 205-304): the structural schema
check (re-raised as `InvalidConfiguration`), then the fail-fast referential
integrity check over every database, collection, and field in insertion
order. -/
def validate_mapping (mappings : MappingConf) : Except PyErr Unit := do
  if ¬ schema_valid mappings then
    Except.error (PyErr.invalidConfiguration .schemaInvalid)
  else validate_dbs mappings

/-! ## Claim-side definitions

These definitions follow the wording of the spec and of the claims, not the
source; they exist to be compared with the source-side definitions above. -/

/-- Follows the claim's words (C2): the `dest` name of a field, or its
original name where `dest` is absent (the `pk` string entry has no
`dest`). -/
def spec_dest_or_name (mcoll : CollM) (k : String) : String :=
  match dlookup mcoll k with
  | some (.fm f) => f.dest.getD k
  | _ => k

/-- Follows the claim's words (C2): the `dest` names (or original names
where `dest` is absent) of the fields occurring both as keys of the
flattened document and as entries of the collection's mapping. -/
def spec_output_keys (flat : PyDict Value) (mcoll : CollM) : List String :=
  ((dkeys flat).filter (fun k => dcontains mcoll k)).map (spec_dest_or_name mcoll)

/-- Follows the claim's words (C4): `kv` is a non-`pk` entry of array type
whose `dest` is `collection`. -/
def is_array_link_to (collection : String) (kv : String × MapVal) : Bool :=
  kv.1 != "pk" &&
  (match kv.2 with
   | .fm f =>
     (f.type == some ARRAY_TYPE || f.type == some ARRAY_OF_SCALARS_TYPE) &&
     f.dest == some collection
   | .str _ => false)

/-- Follows the claim's words (C4): some other collection of the database
has an array-typed field whose `dest` is this collection. -/
def spec_has_array_link (dbmapping : DbM) (collection : String) : Prop :=
  ∃ p ∈ dbmapping, p.1 ≠ collection ∧ ∃ kv ∈ p.2,
    is_array_link_to collection kv = true

instance (dbmapping : DbM) (collection : String) :
    Decidable (spec_has_array_link dbmapping collection) := by
  unfold spec_has_array_link; infer_instance

/-- Follows the claim's words (C8): no entry of the collection's mapping
carries a `dest` equal to the primary-key name. -/
def spec_no_field_mapped_to_pk (mcoll : CollM) (pkname : String) : Bool :=
  mcoll.all (fun kv =>
    match kv.2 with
    | .fm f => f.dest != some pkname
    | .str _ => true)

/-- Kind-level recognizer for the "primary key mapping not found" error
(used to state that `validate_mapping` did not raise it, whatever its
arguments). -/
def isPkNotFoundErr (r : Except PyErr Unit) : Bool :=
  match r with
  | .error (.invalidConfiguration (.pkNotFound _ _ _)) => true
  | _ => false

/-- Kind-level recognizer for the "foreign key type mismatch" error. -/
def isFkTypeMismatchErr (r : Except PyErr Unit) : Bool :=
  match r with
  | .error (.invalidConfiguration (.fkTypeMismatch _ _ _ _ _)) => true
  | _ => false

/-! ## Concrete configurations for witnesses and counterexamples -/

/-- Collection `B` of the minimal two-collection database of C4: `A`
carries an array field pointing at `B`; `B` has no field mapped to its own
`pk` and resolves it through the linked-table rule. -/
def exTwoCollB : CollM :=
  [("pk", .str "bid"),
   ("parent_id", .fm { type := some "INT", dest := some "parent_id" })]

/-- The database mapping of the minimal two-collection example. -/
def exTwoCollDb : DbM :=
  [("A", [("pk", .str "aid"),
          ("aid", .fm { type := some "INT", dest := some "aid" }),
          ("children", .fm { type := some ARRAY_TYPE, dest := some "B",
                             fk := some "parent_id" })]),
   ("B", exTwoCollB)]

/-- The minimal two-collection configuration itself. -/
def exTwoColl : MappingConf := [("db1", exTwoCollDb)]

/-- Collection `B` of the C4 counterexample: an unresolvable primary key
and no fields. -/
def c4cexB : CollM := [("pk", MapVal.str "bid")]

/-- The database mapping of the C4 counterexample: collection `A` passes
its primary-key check but its array field names a non-existent destination
`Zzz`; collection `B` has an unresolvable `pk` and no linking field
anywhere.  Fail-fast iteration reaches `A`'s field check first. -/
def c4cexDb : DbM :=
  [("A", [("pk", .str "id"),
          ("id", .fm { type := some "TEXT", dest := some "id" }),
          ("arr", .fm { type := some ARRAY_TYPE, dest := some "Zzz",
                        fk := some "f" })]),
   ("B", c4cexB)]

/-- Counterexample configuration for C4. -/
def c4cexM : MappingConf := [("d", c4cexDb)]

/-- Collection `B` of the C5 counterexample: resolved primary-key type
`INT`, array field `arr` referencing `C.ref`. -/
def c5cexB : CollM :=
  [("pk", .str "bid"),
   ("bid", .fm { type := some "INT", dest := some "bid" }),
   ("arr", .fm { type := some ARRAY_TYPE, dest := some "C",
                 fk := some "ref" })]

/-- Collection `C` of the C5 counterexample: holds the foreign-key field
`ref` of type `TEXT`. -/
def c5cexC : CollM :=
  [("pk", .str "cid"),
   ("cid", .fm { type := some "INT", dest := some "cid" }),
   ("ref", .fm { type := some "TEXT", dest := some "ref" })]

/-- The database mapping of the C5 counterexample: collection `A`'s
unresolvable primary key is hit first, although collection `B`'s array
field `arr` has a foreign key (`C.ref`, type `TEXT`) whose type differs
from `B`'s resolved primary-key type (`INT`). -/
def c5cexDb : DbM :=
  [("A", [("pk", MapVal.str "aid")]), ("B", c5cexB), ("C", c5cexC)]

/-- Counterexample configuration for C5. -/
def c5cexM : MappingConf := [("d", c5cexDb)]

/-- The collection mapping of the C2 counterexample: a rename chain.  `f1`
renames to `f2` — the name of another retained source field — and `f2`
renames to `f3`, so the rename of `f1` is renamed a second time when the
loop reaches the original key `f2`. -/
def c2cexColl : CollM :=
  [("pk", .str "id"),
   ("f1", .fm { type := some "TEXT", dest := some "f2" }),
   ("f2", .fm { type := some "TEXT", dest := some "f3" })]

/-- Counterexample configuration for C2. -/
def c2cexM : MappingConf := [("d", [("c", c2cexColl)])]

/-- The flattened document of the C2 counterexample: both `f1` and `f2`
present, in that order. -/
def c2cexFlat : PyDict Value := [("f1", Value.int 1), ("f2", Value.int 2)]

/-- Collection mapping of the C2 witness, after the spec's §8 scenario:
retain `a` (renamed `a_col`) and `b.c.d` (renamed `bcd_col`). -/
def exC2coll : CollM :=
  [("pk", .str "id"),
   ("a", .fm { type := some "INT", dest := some "a_col" }),
   ("b.c.d", .fm { type := some "INT", dest := some "bcd_col" })]

/-- Configuration of the C2 witness. -/
def exC2M : MappingConf := [("d", [("c", exC2coll)])]

/-- The flattened form of the spec's §8 example document. -/
def exC2flat : PyDict Value :=
  [("a", .int 2), ("b.c.d", .int 5), ("e.0", .int 6), ("e.1", .int 7),
   ("e.2", .int 8)]

/-- Counterexample configuration for C8: the primary-key name is the string
`"dest"`, so the comprehension's `'dest' in v` substring test succeeds on
the `pk` entry and `v['dest']` raises `TypeError`. -/
def c8cexM : MappingConf :=
  [("d", [("c", [("pk", .str "dest")])])]

/-- A small transform environment for witnesses: one registered module with
one doubling function, expressions compiled by the source's restricted
model. -/
def exEnv : TransformEnv :=
  ⟨[("mongo_connector.doc_managers.transforms",
     [("double", fun v =>
        match v with
        | .int n => (.ok (.int (2 * n)), [])
        | _ => (.error (), []))])],
   compileExpr_source⟩

/-! ## Hypothesis conditions for the corrected claims -/

/-- No string-valued entry of the collection mapping (in a well-formed
configuration, only the `pk` entry) contains `"dest"` as a substring — the
condition under which the rename loop's and the autogenerated-id
comprehension's Python substring test on the `pk` string stays `False` and
no `TypeError` is raised. -/
def pk_entries_dest_free (mcoll : CollM) : Bool :=
  mcoll.all (fun kv =>
    match kv.2 with
    | .str s => !(strContainsSub s "dest")
    | .fm _ => true)

/-- No retained field's `dest` collides with the name of a different
retained source field: the condition under which the rename loop of
`get_mapped_document` renames every retained key exactly once. -/
def rename_collision_free (flatKeys : List String) (mcoll : CollM) : Bool :=
  (flatKeys.filter (fun j => dcontains mcoll j)).all (fun k =>
    match dlookup mcoll k with
    | some (.fm f) =>
      match f.dest with
      | some m =>
        (flatKeys.filter (fun j => dcontains mcoll j)).all
          (fun k' => (k' == k) || (m != k'))
      | none => true
    | _ => true)

/-! ## Helper lemmas about the dictionary model -/

theorem dlookup_isSome_iff {α : Type} (d : PyDict α) (k : String) :
    (dlookup d k).isSome = true ↔ k ∈ dkeys d := by
  induction d with
  | nil => simp [dlookup, dkeys]
  | cons hd tl ih =>
    obtain ⟨k', v⟩ := hd
    by_cases h : k' = k
    · subst h; simp [dlookup, dkeys]
    · simp [dlookup, dkeys, h, ih, Ne.symm h]

theorem dcontains_iff {α : Type} (d : PyDict α) (k : String) :
    dcontains d k = true ↔ k ∈ dkeys d := by
  rw [dcontains, dlookup_isSome_iff]

theorem dlookup_exists_of_mem_dkeys {α : Type} {d : PyDict α} {k : String}
    (h : k ∈ dkeys d) : ∃ v, dlookup d k = some v := by
  rw [← dlookup_isSome_iff, Option.isSome_iff_exists] at h
  exact h

theorem dkeys_filter (l : PyDict Value) (p : String → Bool) :
    dkeys (l.filter (fun kv => p kv.1)) = (dkeys l).filter p := by
  induction l with
  | nil => simp [dkeys]
  | cons hd tl ih =>
    by_cases h : p hd.1 <;> simp [dkeys, List.filter_cons, h] <;>
      simpa [dkeys] using ih

theorem dkeys_append {α : Type} (d e : PyDict α) :
    dkeys (d ++ e) = dkeys d ++ dkeys e := by
  simp [dkeys]

theorem dkeys_dinsert_of_contains {α : Type} (d : PyDict α) (k : String) (v : α)
    (h : dcontains d k = true) : dkeys (dinsert d k v) = dkeys d := by
  rw [dinsert, if_pos h, dkeys, dkeys, List.map_map]
  apply List.map_congr_left
  intro p _
  by_cases hp : p.1 = k <;> simp [hp]

theorem mem_dkeys_dinsert {α : Type} (d : PyDict α) (k : String) (v : α)
    (x : String) : x ∈ dkeys (dinsert d k v) ↔ x ∈ dkeys d ∨ x = k := by
  by_cases h : dcontains d k = true
  · rw [dkeys_dinsert_of_contains d k v h]
    constructor
    · exact fun hx => Or.inl hx
    · rintro (hx | rfl)
      · exact hx
      · exact (dcontains_iff d x).mp h
  · rw [dinsert, if_neg h, dkeys_append]
    simp [dkeys]

theorem mem_dkeys_dpop {α : Type} (d : PyDict α) (k x : String) :
    x ∈ dkeys (dpop d k) ↔ x ∈ dkeys d ∧ x ≠ k := by
  simp only [dkeys, dpop, List.mem_map, List.mem_filter]
  constructor
  · rintro ⟨p, ⟨hp, hq⟩, rfl⟩
    exact ⟨⟨p, hp, rfl⟩, by simpa using hq⟩
  · rintro ⟨⟨p, hp, rfl⟩, hne⟩
    exact ⟨p, ⟨hp, by simpa using hne⟩, rfl⟩

theorem dlookup_mem {α : Type} {d : PyDict α} {k : String} {v : α}
    (h : dlookup d k = some v) : (k, v) ∈ d := by
  induction d with
  | nil => simp [dlookup] at h
  | cons hd tl ih =>
    rw [dlookup] at h
    by_cases hk : hd.1 = k
    · obtain ⟨k', v'⟩ := hd
      simp only at hk
      rw [if_pos hk] at h
      cases h
      subst hk
      exact List.mem_cons_self _ _
    · obtain ⟨k', v'⟩ := hd
      simp only at hk
      rw [if_neg hk] at h
      exact List.mem_cons_of_mem _ (ih h)

theorem except_bind_ok {ε α β : Type} (a : α) (f : α → Except ε β) :
    (Except.ok a >>= f : Except ε β) = f a := rfl

theorem except_bind_error {ε α β : Type} (e : ε) (f : α → Except ε β) :
    (Except.error e >>= f : Except ε β) = Except.error e := rfl

theorem except_pure_eq {ε α : Type} (a : α) :
    (pure a : Except ε α) = Except.ok a := rfl

theorem except_pure_bind {ε α β : Type} (a : α) (f : α → Except ε β) :
    ((pure a : Except ε α) >>= f) = f a := rfl

theorem pk_entries_dest_free_spec {mcoll : CollM}
    (h : pk_entries_dest_free mcoll = true) {k : String} {s : String}
    (hk : dlookup mcoll k = some (MapVal.str s)) :
    strContainsSub s "dest" = false := by
  have hm := dlookup_mem hk
  have hall := List.all_eq_true.mp h _ hm
  simpa using hall

theorem rename_collision_free_spec {flatKeys : List String} {mcoll : CollM}
    (h : rename_collision_free flatKeys mcoll = true) :
    ∀ k ∈ flatKeys.filter (fun j => dcontains mcoll j),
      ∀ f m, dlookup mcoll k = some (MapVal.fm f) → f.dest = some m →
      ∀ k' ∈ flatKeys.filter (fun j => dcontains mcoll j),
        k' ≠ k → m ≠ k' := by
  intro k hk f m hl hd k' hk' hne
  have h1 := List.all_eq_true.mp h _ hk
  simp only [hl, hd] at h1
  have h2 := List.all_eq_true.mp h1 _ hk'
  simp only [Bool.or_eq_true, beq_iff_eq, bne_iff_ne, ne_eq] at h2
  tauto

/-! ## The rename loop of `get_mapped_document` (C2) -/

/-- Characterization of the rename loop: starting from any dictionary whose
keys cover the key list, under the no-`TypeError` and no-collision
hypotheses the loop succeeds, and the final key set is the initial key set
minus the processed keys, plus their dest-or-name images. -/
theorem mapped_fold_keys (mappings : MappingConf) (db collection : String)
    (mdb : DbM) (mcoll : CollM)
    (hdb : dlookup mappings db = some mdb)
    (hcoll : dlookup mdb collection = some mcoll) :
    ∀ (keys : List String) (d : PyDict Value),
      keys.Nodup →
      (∀ k ∈ keys, k ∈ dkeys d) →
      (∀ k ∈ keys, k ∈ dkeys mcoll) →
      (∀ k ∈ keys, ∀ s, dlookup mcoll k = some (MapVal.str s) →
        strContainsSub s "dest" = false) →
      (∀ k ∈ keys, ∀ f m, dlookup mcoll k = some (MapVal.fm f) →
        f.dest = some m → ∀ k' ∈ keys, k' ≠ k → m ≠ k') →
      ∃ out,
        keys.foldlM (mapped_document_step mappings db collection) d
          = .ok out ∧
        ∀ x, x ∈ dkeys out ↔
          ((x ∈ dkeys d ∧ x ∉ keys) ∨
            ∃ k ∈ keys, spec_dest_or_name mcoll k = x) := by
  intro keys
  induction keys with
  | nil =>
    intro d _ _ _ _ _
    exact ⟨d, rfl, fun x => by simp⟩
  | cons key rest ih =>
    intro d hnd hind hinc hstr hchain
    obtain ⟨v, hv⟩ := dlookup_exists_of_mem_dkeys (hinc key (by simp))
    have hkeyd : key ∈ dkeys d := hind key (by simp)
    have hkeyrest : key ∉ rest := (List.nodup_cons.mp hnd).1
    have hndrest : rest.Nodup := (List.nodup_cons.mp hnd).2
    -- the three shapes of the retained entry
    have main :
        ∃ d', mapped_document_step mappings db collection d key = .ok d' ∧
          (∀ x, x ∈ dkeys d' ↔
            (x ∈ dkeys d ∧ x ≠ spec_dest_or_name mcoll key ∧ x ≠ key) ∨
            (x ∈ dkeys d ∧ x = spec_dest_or_name mcoll key ∧
              spec_dest_or_name mcoll key = key) ∨
            x = spec_dest_or_name mcoll key) := by
      cases v with
      | str s =>
        have hs : strContainsSub s "dest" = false := hstr key (by simp) s hv
        have hid : spec_dest_or_name mcoll key = key := by
          simp [spec_dest_or_name, hv]
        refine ⟨d, ?_, ?_⟩
        · simp [mapped_document_step, hdb, hcoll, hv, hs, except_bind_ok,
              except_pure_eq]
        · intro x
          rw [hid]
          by_cases hx : x = key
          · subst hx; simp [hkeyd]
          · simp [hx]
      | fm f =>
        cases hdest : f.dest with
        | none =>
          have hid : spec_dest_or_name mcoll key = key := by
            simp [spec_dest_or_name, hv, hdest]
          refine ⟨d, ?_, ?_⟩
          · simp [mapped_document_step, hdb, hcoll, hv, hdest, except_bind_ok,
                except_pure_eq]
          · intro x
            rw [hid]
            by_cases hx : x = key
            · subst hx; simp [hkeyd]
            · simp [hx]
        | some m =>
          obtain ⟨w, hw⟩ := dlookup_exists_of_mem_dkeys hkeyd
          have hid : spec_dest_or_name mcoll key = m := by
            simp [spec_dest_or_name, hv, hdest]
          refine ⟨dinsert (dpop d key) m w, ?_, ?_⟩
          · simp [mapped_document_step, hdb, hcoll, hv, hdest, hw,
                except_bind_ok, except_pure_eq]
          · intro x
            rw [hid, mem_dkeys_dinsert, mem_dkeys_dpop]
            by_cases hxm : x = m
            · subst hxm; simp
            · by_cases hxk : x = key
              · simp [hxm, hxk]
                tauto
              · simp [hxm, hxk]
    obtain ⟨d', hstep, hd'⟩ := main
    have hrest_ind : ∀ k ∈ rest, k ∈ dkeys d' := by
      intro k hk
      have hkd : k ∈ dkeys d := hind k (by simp [hk])
      have hkk : k ≠ key := fun h => hkeyrest (h ▸ hk)
      rw [hd' k]
      by_cases hkm : k = spec_dest_or_name mcoll key
      · exact Or.inr (Or.inr hkm)
      · exact Or.inl ⟨hkd, hkm, hkk⟩
    have hmnotrest : spec_dest_or_name mcoll key ∉ rest := by
      intro hmr
      cases v with
      | str s =>
        have hid : spec_dest_or_name mcoll key = key := by
          simp [spec_dest_or_name, hv]
        rw [hid] at hmr
        exact hkeyrest hmr
      | fm f =>
        cases hdest : f.dest with
        | none =>
          have hid : spec_dest_or_name mcoll key = key := by
            simp [spec_dest_or_name, hv, hdest]
          rw [hid] at hmr
          exact hkeyrest hmr
        | some m =>
          have hidm : spec_dest_or_name mcoll key = m := by
            simp [spec_dest_or_name, hv, hdest]
          rw [hidm] at hmr
          by_cases hmk : m = key
          · exact hkeyrest (hmk ▸ hmr)
          · exact hchain key (List.mem_cons_self _ _) f m hv hdest m
              (List.mem_cons_of_mem _ hmr) hmk rfl
    obtain ⟨out, hout, hiff⟩ := ih d' hndrest hrest_ind
      (fun k hk => hinc k (by simp [hk]))
      (fun k hk => hstr k (by simp [hk]))
      (fun k hk f m h1 h2 k' hk' => hchain k (by simp [hk]) f m h1 h2 k'
        (by simp [hk']) )
    refine ⟨out, ?_, ?_⟩
    · rw [List.foldlM, hstep, except_bind_ok]
      exact hout
    · intro x
      rw [hiff x]
      constructor
      · rintro (⟨hxd', hxr⟩ | ⟨k, hk, hdk⟩)
        · rw [hd' x] at hxd'
          rcases hxd' with ⟨hxd, _, hxk⟩ | ⟨_, hxm, _⟩ | hxm
          · exact Or.inl ⟨hxd, by simp [hxk, hxr]⟩
          · exact Or.inr ⟨key, List.mem_cons_self _ _, hxm.symm⟩
          · exact Or.inr ⟨key, List.mem_cons_self _ _, hxm.symm⟩
        · exact Or.inr ⟨k, List.mem_cons_of_mem _ hk, hdk⟩
      · rintro (⟨hxd, hxkr⟩ | ⟨k, hk, hdk⟩)
        · have hxk : x ≠ key := fun h => hxkr (by simp [h])
          have hxr : x ∉ rest := fun h => hxkr (by simp [h])
          refine Or.inl ⟨?_, hxr⟩
          rw [hd' x]
          by_cases hxm : x = spec_dest_or_name mcoll key
          · exact Or.inr (Or.inr hxm)
          · exact Or.inl ⟨hxd, hxm, hxk⟩
        · rcases List.mem_cons.mp hk with rfl | hkrest
          · refine Or.inl ⟨?_, hdk ▸ hmnotrest⟩
            rw [hd' x]
            exact Or.inr (Or.inr hdk.symm)
          · exact Or.inr ⟨k, hkrest, hdk⟩

/-! ## Validator helper lemmas (C4) -/

theorem schema_valid_field_parts {f : FieldMapping}
    (h : schema_valid_field f = true) :
    ∃ t, f.type = some t ∧
      ((t = ARRAY_TYPE ∨ t = ARRAY_OF_SCALARS_TYPE) →
        f.dest.isSome = true ∧ f.fk.isSome = true) ∧
      (t = ARRAY_OF_SCALARS_TYPE → f.valueField.isSome = true) := by
  cases ht : f.type with
  | none => rw [schema_valid_field, ht] at h; cases h
  | some t =>
    rw [schema_valid_field, ht] at h
    simp only [Bool.and_eq_true, Bool.or_eq_true, bne_iff_ne, ne_eq] at h
    refine ⟨t, rfl, ?_, ?_⟩ <;> intro harr <;> tauto

theorem schema_valid_coll_parts {mcoll : CollM}
    (h : schema_valid_coll mcoll = true) :
    (∃ s, dlookup mcoll "pk" = some (MapVal.str s)) ∧
    (∀ kv ∈ mcoll, kv.1 ≠ "pk" →
      ∃ f, kv.2 = MapVal.fm f ∧ schema_valid_field f = true) ∧
    (dkeys mcoll).Nodup := by
  simp only [schema_valid_coll, Bool.and_eq_true, List.all_eq_true,
    decide_eq_true_eq] at h
  obtain ⟨⟨h1, h2⟩, h3⟩ := h
  refine ⟨?_, ?_, h3⟩
  · cases hl : dlookup mcoll "pk" with
    | none => rw [hl] at h1; cases h1
    | some v =>
      cases v with
      | str s => exact ⟨s, rfl⟩
      | fm f => rw [hl] at h1; cases h1
  · intro kv hkv hne
    have := h2 kv hkv
    rw [if_neg hne] at this
    cases hv : kv.2 with
    | str s => rw [hv] at this; cases this
    | fm f => exact ⟨f, rfl, by rw [hv] at this; exact this⟩

theorem schema_valid_db_colls {dbm : DbM} (h : schema_valid_db dbm = true) :
    ∀ p ∈ dbm, schema_valid_coll p.2 = true := by
  simp only [schema_valid_db, Bool.and_eq_true, List.all_eq_true] at h
  exact h.2

theorem schema_valid_dbs {m : MappingConf} (h : schema_valid m = true) :
    ∀ p ∈ m, schema_valid_db p.2 = true := by
  simp only [schema_valid, Bool.and_eq_true, List.all_eq_true] at h
  exact h.2

theorem linkFlags_ok {collection : String} {lm : CollM}
    (hfields : ∀ kv ∈ lm, kv.1 ≠ "pk" →
      ∃ f, kv.2 = MapVal.fm f ∧ schema_valid_field f = true) :
    linkFlags collection lm = .ok (lm.countP (is_array_link_to collection)) := by
  induction lm with
  | nil => rfl
  | cons kv rest ih =>
    obtain ⟨field, v⟩ := kv
    have ihr := ih (fun kv' h' => hfields kv' (List.mem_cons_of_mem _ h'))
    simp only [linkFlags]
    by_cases hpk : field = "pk"
    · rw [if_pos hpk, except_pure_bind, ihr, except_bind_ok, except_pure_eq,
        List.countP_cons]
      have hlink : is_array_link_to collection (field, v) = false := by
        simp [is_array_link_to, hpk]
      simp [hlink]
    · obtain ⟨f, hf, hsvf⟩ := hfields (field, v) (List.mem_cons_self _ _) hpk
      simp only at hf
      subst hf
      obtain ⟨t, ht, harr, _⟩ := schema_valid_field_parts hsvf
      rw [if_neg hpk]
      simp only [ht]
      by_cases hta : t = ARRAY_TYPE ∨ t = ARRAY_OF_SCALARS_TYPE
      · obtain ⟨dv, hdv⟩ := Option.isSome_iff_exists.mp (harr hta).1
        rw [if_pos hta]
        simp only [hdv]
        rw [except_pure_bind, ihr, except_bind_ok, except_pure_eq,
          List.countP_cons]
        by_cases hd : dv = collection
        · have hlink : is_array_link_to collection (field, MapVal.fm f) = true := by
            simp only [is_array_link_to, ht, hdv, hd]
            rcases hta with h | h <;> simp [hpk, h]
          simp [hlink, hd]
        · have hlink : is_array_link_to collection (field, MapVal.fm f) = false := by
            simp [is_array_link_to, ht, hdv, hd]
          simp [hlink, hd]
      · rw [if_neg hta]
        rw [except_pure_bind, ihr, except_bind_ok, except_pure_eq,
          List.countP_cons]
        push_neg at hta
        have hlink : is_array_link_to collection (field, MapVal.fm f) = false := by
          simp [is_array_link_to, ht, hta.1, hta.2]
        simp [hlink]

theorem findLinked_ok (collection : String) {rem : DbM}
    (hdb : ∀ p ∈ rem, schema_valid_coll p.2 = true) :
    ∃ b, findLinked collection rem = .ok b ∧
      ((b = true) ↔ ∃ p ∈ rem, p.1 ≠ collection ∧
        ∃ kv ∈ p.2, is_array_link_to collection kv = true) := by
  induction rem with
  | nil => exact ⟨false, rfl, by simp⟩
  | cons hd rest ih =>
    obtain ⟨name, lm⟩ := hd
    obtain ⟨b, hb, hbiff⟩ := ih (fun p hp => hdb p (List.mem_cons_of_mem _ hp))
    simp only [findLinked]
    by_cases hname : name = collection
    · rw [if_pos hname]
      refine ⟨b, hb, ?_⟩
      rw [hbiff]
      constructor
      · rintro ⟨p, hp, hne, hl⟩
        exact ⟨p, List.mem_cons_of_mem _ hp, hne, hl⟩
      · rintro ⟨p, hp, hne, hl⟩
        rcases List.mem_cons.mp hp with hpe | hp'
        · rw [hpe] at hne
          simp [hname] at hne
        · exact ⟨p, hp', hne, hl⟩
    · rw [if_neg hname]
      obtain ⟨_, hfields, _⟩ :=
        schema_valid_coll_parts (hdb (name, lm) (List.mem_cons_self _ _))
      rw [linkFlags_ok hfields, except_bind_ok]
      by_cases hpos : lm.countP (is_array_link_to collection) > 0
      · rw [if_pos hpos]
        refine ⟨true, rfl, ?_⟩
        simp only [true_iff]
        obtain ⟨kv, hkv, hlk⟩ := List.countP_pos_iff.mp hpos
        exact ⟨(name, lm), List.mem_cons_self _ _, hname, kv, hkv, hlk⟩
      · rw [if_neg hpos]
        refine ⟨b, hb, ?_⟩
        rw [hbiff]
        constructor
        · rintro ⟨p, hp, hne, hl⟩
          exact ⟨p, List.mem_cons_of_mem _ hp, hne, hl⟩
        · rintro ⟨p, hp, hne, hl⟩
          rcases List.mem_cons.mp hp with hpe | hp'
          · obtain ⟨kv, hkv, hlk⟩ := hl
            rw [hpe] at hkv
            exact absurd (List.countP_pos_iff.mpr ⟨kv, hkv, hlk⟩) hpos
          · exact ⟨p, hp', hne, hl⟩

/-! ## Counting lemma for `is_id_autogenerated` (C8) -/

theorem id_autogen_count {pkname : String} :
    ∀ (l : List (String × MapVal)),
      (∀ kv ∈ l, ∀ s, kv.2 = MapVal.str s → strContainsSub s "dest" = false) →
      ∀ n, l.foldlM (id_autogen_step (MapVal.str pkname)) n
        = .ok (n + l.countP (fun kv =>
            match kv.2 with
            | .fm f => f.dest == some pkname
            | .str _ => false)) := by
  intro l
  induction l with
  | nil => intro _ n; simp [List.foldlM, except_pure_eq]
  | cons kv rest ih =>
    intro hstr n
    have ihr := ih (fun kv' h' => hstr kv' (List.mem_cons_of_mem _ h'))
    rw [List.foldlM]
    rw [id_autogen_step]
    cases hv : kv.2 with
    | str s =>
      have hs := hstr kv (List.mem_cons_self _ _) s hv
      simp only [hs, Bool.false_eq_true, if_false, except_bind_ok,
        except_pure_eq]
      rw [ihr, List.countP_cons]
      simp [hv]
    | fm f =>
      simp only [except_bind_ok, except_pure_eq]
      cases hd : f.dest with
      | none =>
        simp only [except_bind_ok]
        rw [ihr, List.countP_cons]
        simp [hv, hd]
      | some d =>
        by_cases hdp : d = pkname
        · simp only [except_bind_ok, hdp, beq_self_eq_true, if_true]
          rw [ihr, List.countP_cons]
          simp only [hv, hd, hdp, beq_self_eq_true, if_true]
          congr 1
          omega
        · have hne : (d == pkname) = false := by simp [hdp]
          simp only [except_bind_ok, hne, Bool.false_eq_true, if_false]
          rw [ihr, List.countP_cons]
          simp [hv, hd, hdp]

/-! ## Claim theorems -/

/-- C1 (code bug): the claim — `get_transformed_value` never raises to its
caller, in particular when the reference transform's module exists but
lacks the named symbol — is right about the documented contract, but the
code violates it.  `getattr` on an existing module without the symbol
raises `AttributeError`, which is outside the source's
`except (ImportError, ValueError)` clause and propagates to the caller,
while a missing module (second conjunct) is absorbed and the value passes
through unchanged. -/
theorem claim_C1_attribute_error_escapes :
    get_transformed_value
        ⟨[("mongo_connector.doc_managers.transforms", [])], fun _ => .error ()⟩
        { transform := some "@mongo_connector.doc_managers.transforms.missing" }
        [("k", Value.int 21)] "k"
      = .error .attributeError ∧
    get_transformed_value ⟨[], fun _ => .error ()⟩
        { transform := some "@mongo_connector.doc_managers.transforms.missing" }
        [("k", Value.int 21)] "k"
      = .ok (Value.int 21, []) := by
  exact ⟨by decide, by decide⟩

/-- C3 (code bug): the claim — a forbidden capability in an expression
transform is never exercised and the value stays unchanged — matches the
spec's sandbox contract, but the code defeats its own sandbox.  The
source's globals bind the safe builtins under the key `"__builtin__"`
instead of `"__builtins__"`, so CPython's `exec` injects the real builtins:
`open` resolves (first conjunct), the file capability is exercised, and the
value is replaced by the file object (third conjunct).  Under the intended
key the same transform fails closed and leaves the value unchanged (second
and fourth conjuncts). -/
theorem claim_C3_sandbox_defeated :
    resolvesBuiltin source_restricted_globals "open" = true ∧
    resolvesBuiltin intended_restricted_globals "open" = false ∧
    get_transformed_value ⟨[], compileExpr_source⟩
        { transform := some "open('/etc/passwd')" } [("k", Value.int 21)] "k"
      = .ok (Value.file "/etc/passwd", [Effect.openFile "/etc/passwd"]) ∧
    get_transformed_value ⟨[], compileExpr_intended⟩
        { transform := some "open('/etc/passwd')" } [("k", Value.int 21)] "k"
      = .ok (Value.int 21, []) := by
  exact ⟨by decide, by decide, by decide, by decide⟩

/-- C6 counterexample: the claim says every Lookup accessor — the
scalar-array field list included — fails with a "not mapped" condition on
an absent namespace; but `get_scalar_array_fields` on an absent database
silently returns the empty list, with no error. -/
theorem claim_C6_counterexample :
    dlookup ([] : MappingConf) "d" = none ∧
    get_scalar_array_fields [] "d" "c" = .ok [] := by
  exact ⟨rfl, rfl⟩

/-- C6 (amended): `get_mapped_field` and `get_primary_key` do raise
`KeyError` whenever the database, collection, or queried field is absent;
`get_scalar_array_fields`, by contrast, silently returns `[]` for an
absent database or collection. -/
theorem claim_C6_amended :
    (∀ (mappings : MappingConf) (db collection field_name : String),
      (dlookup mappings db = none ∨
        (∃ mdb, dlookup mappings db = some mdb ∧
          (dlookup mdb collection = none ∨
            (∃ mcoll, dlookup mdb collection = some mcoll ∧
              dlookup mcoll field_name = none)))) →
      get_mapped_field mappings (db, collection) field_name
        = .error .keyError) ∧
    (∀ (mappings : MappingConf) (db collection : String),
      (dlookup mappings db = none ∨
        (∃ mdb, dlookup mappings db = some mdb ∧
          dlookup mdb collection = none)) →
      get_primary_key mappings (db, collection) = .error .keyError) ∧
    (∀ (mappings : MappingConf) (db collection : String),
      (dlookup mappings db = none ∨
        (∃ mdb, dlookup mappings db = some mdb ∧
          dlookup mdb collection = none)) →
      get_scalar_array_fields mappings db collection = .ok []) := by
  refine ⟨?_, ?_, ?_⟩
  · intro mappings db collection f hcase
    rcases hcase with h | ⟨mdb, h1, h2⟩
    · simp [get_mapped_field, db_and_collection, h]
    · rcases h2 with h2 | ⟨mcoll, h2, h3⟩
      · simp [get_mapped_field, db_and_collection, h1, h2]
      · simp [get_mapped_field, db_and_collection, h1, h2, h3]
  · intro mappings db collection hcase
    rcases hcase with h | ⟨mdb, h1, h2⟩
    · simp [get_primary_key, db_and_collection, h]
    · simp [get_primary_key, db_and_collection, h1, h2]
  · intro mappings db collection hcase
    rcases hcase with h | ⟨mdb, h1, h2⟩
    · simp [get_scalar_array_fields, h]
    · simp [get_scalar_array_fields, h1, h2]

/-- Witness for C6: concrete absent namespace. -/
theorem claim_C6_witness :
    get_mapped_field [] ("d", "c") "f" = .error .keyError ∧
    get_primary_key [] ("d", "c") = .error .keyError ∧
    get_scalar_array_fields [] "d" "c" = .ok [] :=
  ⟨claim_C6_amended.1 [] "d" "c" "f" (Or.inl rfl),
   claim_C6_amended.2.1 [] "d" "c" (Or.inl rfl),
   claim_C6_amended.2.2 [] "d" "c" (Or.inl rfl)⟩

/-- C7 (confirmed): for every raw document and every namespace whose
database or collection is unmapped, `get_mapped_document` returns the
empty record. -/
theorem claim_C7_unmapped_namespace_empty {Doc : Type}
    (fmt : Doc → PyDict Value) (mappings : MappingConf) (document : Doc)
    (db collection : String)
    (h : dlookup mappings db = none ∨
      (∃ mdb, dlookup mappings db = some mdb ∧
        dlookup mdb collection = none)) :
    get_mapped_document fmt mappings document (db, collection) = .ok [] := by
  rcases h with h | ⟨mdb, h1, h2⟩
  · simp [get_mapped_document, clean_and_flatten_doc, db_and_collection, h,
      dkeys, List.foldlM, except_pure_eq]
  · simp [get_mapped_document, clean_and_flatten_doc, db_and_collection, h1,
      h2, dkeys, List.foldlM, except_pure_eq]

/-- Witness for C7. -/
theorem claim_C7_witness :
    get_mapped_document (fun _ : Unit => [("a", Value.int 2)]) [] ()
      ("d", "c") = .ok [] :=
  claim_C7_unmapped_namespace_empty _ _ _ _ _ (Or.inl rfl)

/-- C9 (confirmed): the transform pipeline is a pure function of the
configuration, the document, the namespace, and the explicit external
environment — the source mutates only freshly allocated dictionaries, so
the embedding carries no state between calls — and hence two consecutive
runs on the same inputs return identical results. -/
theorem claim_C9_deterministic {Doc : Type} (env : TransformEnv)
    (fmt : Doc → PyDict Value) (mappings : MappingConf) (document : Doc)
    (ns : Namespace) (r₁ r₂ : Except PyErr (PyDict Value × List Effect))
    (h₁ : r₁ = transform_pipeline env fmt mappings document ns)
    (h₂ : r₂ = transform_pipeline env fmt mappings document ns) :
    r₁ = r₂ :=
  h₁.trans h₂.symm

/-- Witness for C9: two runs on a concrete document and configuration. -/
theorem claim_C9_witness :
    transform_pipeline exEnv (fun _ : Unit => c2cexFlat) c2cexM () ("d", "c")
      = transform_pipeline exEnv (fun _ : Unit => c2cexFlat) c2cexM ()
          ("d", "c") :=
  claim_C9_deterministic exEnv (fun _ : Unit => c2cexFlat) c2cexM () ("d", "c")
    _ _ rfl rfl

/-- C10 (confirmed): for every configuration whose collection mapping
carries the data model's distinguished `pk` entry, `is_mapped` with field
name `"pk"` answers `true` — the `pk` entry is an ordinary dictionary key
to the membership test even though it is not a source field. -/
theorem claim_C10_pk_is_mapped (mappings : MappingConf)
    (db collection : String) (mdb : DbM) (mcoll : CollM)
    (hdb : dlookup mappings db = some mdb)
    (hcoll : dlookup mdb collection = some mcoll)
    (hpk : dcontains mcoll "pk" = true) :
    is_mapped mappings (db, collection) (some "pk") = true := by
  simp [is_mapped, db_and_collection, hdb, hcoll, hpk]

/-- Witness for C10. -/
theorem claim_C10_witness :
    is_mapped exTwoColl ("db1", "B") (some "pk") = true :=
  claim_C10_pk_is_mapped exTwoColl "db1" "B" exTwoCollDb exTwoCollB
    (by decide) (by decide) (by decide)

/-- A Boolean-level bridge: a count is zero exactly when no element
satisfies the predicate. -/
theorem countP_eq_zero_eq_all {α : Type} (p : α → Bool) (l : List α) :
    ((l.countP p == 0) : Bool) = l.all (fun a => !p a) := by
  by_cases h : l.countP p = 0
  · rw [h]
    simp only [beq_self_eq_true]
    symm
    rw [List.all_eq_true]
    intro a ha
    have := List.countP_eq_zero.mp h a ha
    simpa using this
  · have h0 : (l.countP p == 0) = false := by simpa using h
    rw [h0]
    symm
    rw [← Bool.not_eq_true, List.all_eq_true]
    intro hall
    apply h
    rw [List.countP_eq_zero]
    intro a ha
    have := hall a ha
    simpa using this

/-- C8 counterexample: the claim quantifies over every configuration and
mapped namespace; with the primary-key name `"dest"` no entry carries a
`dest` equal to it (the claim therefore predicts `True`), yet
`is_id_autogenerated` raises `TypeError` — the comprehension's
`'dest' in v` substring test succeeds on the `pk` string and `v['dest']`
subscripts a string. -/
theorem claim_C8_counterexample :
    spec_no_field_mapped_to_pk [("pk", MapVal.str "dest")] "dest" = true ∧
    is_id_autogenerated c8cexM ("d", "c") = .error .typeError := by
  exact ⟨by decide, by decide⟩

/-- C8 (amended): for every configuration and mapped namespace whose
collection mapping carries a string `pk` entry, and whose string-valued
entries do not contain `"dest"` as a substring (so the comprehension's
substring test on the `pk` string stays `False`), `is_id_autogenerated`
returns `True` exactly when no entry of the collection's mapping carries a
`dest` equal to the primary-key name. -/
theorem claim_C8_amended (mappings : MappingConf)
    (db collection pkname : String) (mdb : DbM) (mcoll : CollM)
    (hdb : dlookup mappings db = some mdb)
    (hcoll : dlookup mdb collection = some mcoll)
    (hpk : dlookup mcoll "pk" = some (MapVal.str pkname))
    (hfree : pk_entries_dest_free mcoll = true) :
    is_id_autogenerated mappings (db, collection)
      = .ok (spec_no_field_mapped_to_pk mcoll pkname) := by
  have hgp : get_primary_key mappings (db, collection)
      = .ok (MapVal.str pkname) := by
    simp [get_primary_key, db_and_collection, hdb, hcoll, hpk, except_pure_eq]
  have hstr : ∀ kv ∈ mcoll, ∀ s, kv.2 = MapVal.str s →
      strContainsSub s "dest" = false := by
    intro kv hkv s hs
    have := List.all_eq_true.mp hfree kv hkv
    rw [hs] at this
    simpa using this
  rw [is_id_autogenerated, hgp, except_bind_ok]
  simp only [db_and_collection, hdb, hcoll, except_bind_ok]
  rw [id_autogen_count mcoll hstr 0, except_bind_ok, except_pure_eq,
    Nat.zero_add, countP_eq_zero_eq_all]
  rw [spec_no_field_mapped_to_pk]
  refine congrArg (Except.ok ∘ List.all mcoll) (funext fun kv => ?_)
  rcases kv with ⟨k, v⟩
  cases v with
  | str s => rfl
  | fm f => rfl

/-- Witness for C8: collection `B` of the two-collection example; no field
is mapped to its primary key `bid`, so the identity is autogenerated. -/
theorem claim_C8_witness :
    is_id_autogenerated exTwoColl ("db1", "B")
      = .ok (spec_no_field_mapped_to_pk exTwoCollB "bid") :=
  claim_C8_amended exTwoColl "db1" "B" "bid" exTwoCollDb exTwoCollB
    (by decide) (by decide) (by decide) (by decide)

/-- C4 counterexample: the claim's "if and only if" over `validate_mapping`
fails under fail-fast iteration.  In `c4cexM`, collection `B` satisfies
every precondition of the claim (structurally valid configuration, `pk`
value `bid` not a key, no array-typed field anywhere pointing at `B`), so
the claim demands the "primary key mapping not found" error — but
validation stops earlier, at collection `A`'s dangling array destination,
and raises "collection mapping not found" instead. -/
theorem claim_C4_counterexample :
    schema_valid c4cexM = true ∧
    dcontains c4cexB "bid" = false ∧
    ¬ spec_has_array_link c4cexDb "B" ∧
    validate_mapping c4cexM
      = .error (.invalidConfiguration (.collectionNotFound "Zzz" "d")) ∧
    isPkNotFoundErr (validate_mapping c4cexM) = false := by
  exact ⟨by decide, by decide, by decide, by decide, by decide⟩

/-- C4 (amended): the per-collection primary-key check of
`validate_mapping` raises "primary key mapping not found" exactly when the
`pk` value is not a key of the collection mapping and no other collection
of the database has an array-typed field whose `dest` equals this
collection — a pure existence check over the database mapping, independent
of search order; `validate_mapping` itself reports this outcome for the
collection only when no earlier check fails first.  The minimal
two-collection database of the claim validates successfully (second
conjunct). -/
theorem claim_C4_amended :
    (∀ (database collection pkname : String) (dbmapping : DbM)
        (mapping : CollM),
      schema_valid_db dbmapping = true →
      dlookup mapping "pk" = some (MapVal.str pkname) →
      dcontains mapping pkname = false →
      (check_pk database collection dbmapping mapping
          = .error (.invalidConfiguration
              (.pkNotFound pkname database collection))
        ↔ ¬ spec_has_array_link dbmapping collection)) ∧
    validate_mapping exTwoColl = .ok () := by
  constructor
  · intro database collection pkname dbmapping mapping hsv hpk hnot
    obtain ⟨b, hb, hbiff⟩ :=
      findLinked_ok collection (schema_valid_db_colls hsv)
    have hcp : check_pk database collection dbmapping mapping
        = (do
            let found ← findLinked collection dbmapping
            if found then pure ()
            else Except.error (PyErr.invalidConfiguration
              (.pkNotFound pkname database collection))) := by
      rw [check_pk]
      simp [hpk, except_bind_ok, hnot]
    rw [hcp, hb, except_bind_ok]
    cases b with
    | true =>
      have hlink : spec_has_array_link dbmapping collection := by
        rw [spec_has_array_link]
        exact hbiff.mp rfl
      simp [except_pure_eq, hlink]
    | false =>
      have hnolink : ¬ spec_has_array_link dbmapping collection := by
        rw [spec_has_array_link]
        intro hx
        exact absurd (hbiff.mpr hx) (by simp)
      simp [hnolink]
  · decide

/-- Witness for C4: collection `B` of the two-collection example has `pk`
value `bid` not among its keys, and collection `A`'s array field links to
it, so the primary-key check does not raise. -/
theorem claim_C4_witness :
    (check_pk "db1" "B" exTwoCollDb exTwoCollB
        = .error (.invalidConfiguration (.pkNotFound "bid" "db1" "B"))
      ↔ ¬ spec_has_array_link exTwoCollDb "B") ∧
    validate_mapping exTwoColl = .ok () :=
  ⟨claim_C4_amended.1 "db1" "B" "bid" exTwoCollDb exTwoCollB (by decide)
      (by decide) (by decide),
   claim_C4_amended.2⟩

/-- C5 counterexample: the claim's "if and only if" over `validate_mapping`
fails under fail-fast iteration.  In `c5cexM`, field `arr` of collection
`B` satisfies every precondition of the claim — its `dest` `C` exists, its
`fk` `ref` is a field of `C` of type `TEXT`, and `B`'s resolved primary-key
type is `INT`, a mismatch — so the claim demands the "foreign key type
mismatch" error; but validation stops earlier, at collection `A`'s
unresolvable primary key. -/
theorem claim_C5_counterexample :
    dlookup c5cexDb "C" = some c5cexC ∧
    dlookup c5cexC "ref"
      = some (MapVal.fm { type := some "TEXT", dest := some "ref" }) ∧
    getTypeItem ((dlookup c5cexB "bid").getD
      (MapVal.fm { type := some "SERIAL" })) = .ok "INT" ∧
    ("TEXT" : String) ≠ "INT" ∧
    validate_mapping c5cexM
      = .error (.invalidConfiguration (.pkNotFound "aid" "d" "A")) ∧
    isFkTypeMismatchErr (validate_mapping c5cexM) = false := by
  exact ⟨by decide, by decide, by decide, by decide, by decide, by decide⟩

/-- C5 (amended): the validator's per-field check, reached only when every
earlier check passed, raises "foreign key type mismatch" exactly when the
foreign-key field's type differs from the type of the owning collection's
resolved primary key, where the primary key resolves through
`mapping.get(mapping['pk'], {'type': 'SERIAL'})` — the `SERIAL` default
when the `pk` name has no field mapping of its own (hypothesis `hpt`; it
also rules out the degenerate `pk` name `"pk"`, on which the code would
raise `TypeError` instead). -/
theorem claim_C5_amended (database collection fieldname dest fkname
      pkname : String)
    (dbmapping : DbM) (mapping destMapping : CollM) (f fkf : FieldMapping)
    (ft fkt pt : String)
    (hfname : fieldname ≠ "pk")
    (hft : f.type = some ft)
    (harr : ft = ARRAY_TYPE ∨ ft = ARRAY_OF_SCALARS_TYPE)
    (hdest : f.dest = some dest)
    (hdm : dlookup dbmapping dest = some destMapping)
    (hfk : f.fk = some fkname)
    (hfke : dlookup destMapping fkname = some (MapVal.fm fkf))
    (hfkt : fkf.type = some fkt)
    (hpk : dlookup mapping "pk" = some (MapVal.str pkname))
    (hpt : getTypeItem ((dlookup mapping pkname).getD
        (MapVal.fm { type := some "SERIAL" })) = .ok pt) :
    (check_field database collection dbmapping mapping fieldname
        (MapVal.fm f)
      = .error (.invalidConfiguration
          (.fkTypeMismatch database dest fkname collection pkname))
      ↔ fkt ≠ pt) := by
  have hc : dcontains destMapping fkname = true := by
    simp [dcontains, hfke]
  have hfkty : getTypeItem (MapVal.fm fkf) = pure fkt := by
    simp [getTypeItem, hfkt, except_pure_eq]
  rw [check_field, if_neg hfname]
  by_cases hne : fkt = pt
  · subst hne
    simp only [except_bind_ok, except_pure_bind, hft, if_pos harr, hdest,
      hdm, hfk, hfke, hpk, hc, hfkty, hpt, ne_eq, not_true, Bool.not_eq_true,
      ite_not, if_true, if_false]
    by_cases haos : ft = ARRAY_OF_SCALARS_TYPE
    · cases hvf : f.valueField with
      | none =>
        simp [haos, hvf, except_bind_ok, except_pure_bind, except_bind_error]
      | some vf =>
        by_cases hvc : dcontains destMapping vf = true <;>
          simp [haos, hvf, hvc, except_bind_ok, except_pure_bind,
            except_pure_eq]
    · simp [haos, except_pure_bind, except_pure_eq]
  · simp only [except_bind_ok, except_pure_bind, hft, if_pos harr, hdest,
      hdm, hfk, hfke, hpk, hc, hfkty, hpt]
    simp [hne, except_bind_error]

/-- Witness for C5: the `children` field of collection `A` in the
two-collection example; foreign-key type and resolved primary-key type are
both `INT`, so no mismatch is raised. -/
theorem claim_C5_witness :
    (check_field "db1" "B" exTwoCollDb
        [("pk", MapVal.str "aid"),
         ("aid", MapVal.fm { type := some "INT", dest := some "aid" }),
         ("children", MapVal.fm { type := some ARRAY_TYPE,
                                  dest := some "B", fk := some "parent_id" })]
        "children"
        (MapVal.fm { type := some ARRAY_TYPE, dest := some "B",
                     fk := some "parent_id" })
      = .error (.invalidConfiguration
          (.fkTypeMismatch "db1" "B" "parent_id" "B" "aid"))
      ↔ ("INT" : String) ≠ "INT") :=
  claim_C5_amended "db1" "B" "children" "B" "parent_id" "aid" exTwoCollDb
    _ exTwoCollB
    { type := some ARRAY_TYPE, dest := some "B", fk := some "parent_id" }
    { type := some "INT", dest := some "parent_id" }
    ARRAY_TYPE "INT" "INT"
    (by decide) rfl (Or.inl rfl) rfl (by decide) rfl (by decide) rfl
    (by decide) (by decide)

/-- C2 counterexample: a rename chain breaks the claimed exact key-set
equality.  With `f1 ↦ f2` and `f2 ↦ f3` and both `f1`, `f2` retained, the
claim's key set is `{f2, f3}`, but the loop renames `f1`'s value to `f2`
and then, on reaching original key `f2`, renames it again to `f3`: the
output is `{f3}` and the claimed key `f2` is missing. -/
theorem claim_C2_counterexample :
    get_mapped_document (fun _ : Unit => c2cexFlat) c2cexM () ("d", "c")
      = .ok [("f3", Value.int 1)] ∧
    "f2" ∈ spec_output_keys c2cexFlat c2cexColl ∧
    "f2" ∉ dkeys [("f3", Value.int 1)] := by
  exact ⟨by decide, by decide, by decide⟩

/-- C2 (amended): provided the flattened document's keys are distinct (the
dictionary invariant of the external flattener), no string-valued entry of
the collection mapping contains `"dest"` as a substring, and no retained
field's `dest` collides with the name of a different retained source field,
`get_mapped_document` succeeds and its key set is exactly the set of `dest`
names (or original names where `dest` is absent) of the fields present both
in the flattened document and in the collection mapping. -/
theorem claim_C2_amended {Doc : Type} (fmt : Doc → PyDict Value)
    (mappings : MappingConf) (document : Doc) (db collection : String)
    (mdb : DbM) (mcoll : CollM)
    (hdb : dlookup mappings db = some mdb)
    (hcoll : dlookup mdb collection = some mcoll)
    (hnodup : (dkeys (fmt document)).Nodup)
    (hfree : pk_entries_dest_free mcoll = true)
    (hcf : rename_collision_free (dkeys (fmt document)) mcoll = true) :
    ∃ out,
      get_mapped_document fmt mappings document (db, collection) = .ok out ∧
      ∀ x, (x ∈ dkeys out ↔ x ∈ spec_output_keys (fmt document) mcoll) := by
  have hclean : clean_and_flatten_doc fmt mappings document (db, collection)
      = (fmt document).filter (fun kv => dcontains mcoll kv.1) := by
    simp [clean_and_flatten_doc, db_and_collection, hdb, hcoll]
  have hkeys : dkeys ((fmt document).filter (fun kv => dcontains mcoll kv.1))
      = (dkeys (fmt document)).filter (fun j => dcontains mcoll j) :=
    dkeys_filter _ _
  obtain ⟨out, hout, hiff⟩ :=
    mapped_fold_keys mappings db collection mdb mcoll hdb hcoll
      ((dkeys (fmt document)).filter (fun j => dcontains mcoll j))
      ((fmt document).filter (fun kv => dcontains mcoll kv.1))
      (hnodup.filter _)
      (fun k hk => by rw [hkeys]; exact hk)
      (fun k hk => by
        rw [List.mem_filter] at hk
        exact (dcontains_iff mcoll k).mp hk.2)
      (fun k _ s hls => pk_entries_dest_free_spec hfree hls)
      (rename_collision_free_spec hcf)
  refine ⟨out, ?_, ?_⟩
  · rw [get_mapped_document]
    simp only [db_and_collection, hclean, hkeys]
    exact hout
  · intro x
    rw [hiff x]
    constructor
    · rintro (⟨hxd, hxK⟩ | ⟨k, hk, hdk⟩)
      · exact absurd (hkeys ▸ hxd) hxK
      · rw [spec_output_keys]
        exact List.mem_map.mpr ⟨k, hk, hdk⟩
    · intro hx
      rw [spec_output_keys] at hx
      obtain ⟨k, hk, hdk⟩ := List.mem_map.mp hx
      exact Or.inr ⟨k, hk, hdk⟩

/-- Witness for C2: the spec's §8 scenario — retain `a` and `b.c.d`,
renamed to `a_col` and `bcd_col`; the array paths `e.0`, `e.1`, `e.2` are
dropped. -/
theorem claim_C2_witness :
    ∃ out,
      get_mapped_document (fun _ : Unit => exC2flat) exC2M () ("d", "c")
        = .ok out ∧
      ∀ x, (x ∈ dkeys out ↔ x ∈ spec_output_keys exC2flat exC2coll) :=
  claim_C2_amended (fun _ : Unit => exC2flat) exC2M () "d" "c"
    [("c", exC2coll)] exC2coll rfl rfl (by decide) (by decide) (by decide)

end Mappings